import Mathlib

/-!
Verification of the place-resolution and forecast-reshaping core of the
weather tool in `src/main.py`.

Python strings are modelled as `List Char`; Python floats carry exact
decimal values through this code (no arithmetic is performed on them),
so they are modelled as `Rat`.  HTTP services are modelled as oracles
(functions from request data to a response), and each operation also
reports the list of network requests it issued, so that "no network
call is made" claims can be stated.
-/

namespace WeatherTool

abbrev Str := List Char

/-- Python `\s` (whitespace class), on the ASCII range that the inputs
of interest use: space, tab, newline, carriage return, vertical tab,
form feed. -/
def isPySpace (c : Char) : Bool :=
  c == ' ' || c == '\t' || c == '\n' || c == '\r' || c == '\x0b' || c == '\x0c'

/-- Worker for `re.sub(r"\s+", " ", s)`: the flag records whether the
previous character was whitespace, so that a maximal whitespace run is
replaced by a single `' '`. -/
def collapseWSGo : Bool → Str → Str
  | _, [] => []
  | inRun, c :: rest =>
    if isPySpace c then
      if inRun then collapseWSGo true rest
      else ' ' :: collapseWSGo true rest
    else c :: collapseWSGo false rest

/-- `re.sub(r"\s+", " ", s)`. -/
def collapseWS (s : Str) : Str := collapseWSGo false s

/-- Remove the trailing run of characters satisfying `p`. -/
def dropTrailing (p : Char → Bool) (s : Str) : Str :=
  (s.reverse.dropWhile p).reverse

/-- Python `str.strip()` (no argument): strip leading and trailing
whitespace. -/
def pyStrip (s : Str) : Str :=
  dropTrailing isPySpace (s.dropWhile isPySpace)

def isCommaOrSpace (c : Char) : Bool := c == ',' || isPySpace c

/-- `_clean_place` (src/main.py lines 9-12):
`s = re.sub(r"\s+", " ", (s or "")).strip()` then
`s = re.sub(r"[,\s]+$", "", s)`. -/
def cleanPlace (s : Str) : Str :=
  dropTrailing isCommaOrSpace (pyStrip (collapseWS s))

/-- `_clean_place` including the `(s or "")` guard for a `None`
argument. -/
def cleanPlaceOpt (s : Option Str) : Str := cleanPlace (s.getD [])

/-! ### Coordinate parser: `_parse_latlon` (src/main.py lines 14-18)

The regex is
`^\s*([+-]?\d+(?:\.\d+)?)\s*[, ]\s*([+-]?\d+(?:\.\d+)?)\s*$`.
The embedding below is the deterministic equivalent of this
backtracking regex:
* each number is parsed by maximal munch (backtracking a `\d+` or the
  optional fraction group can only expose a digit or a `.` to the
  following `\s*[, ]`, which matches neither, so maximal munch is
  equivalent);
* the separator region between the two numbers is the maximal run of
  whitespace-or-comma characters (the characters that can open a
  number, `[+-]` and digits, are neither); it matches `\s*[, ]\s*`
  exactly when it contains a single comma and otherwise whitespace, or
  no comma and at least one literal space character `' '` (the class
  `[, ]` contains only comma and the space character, not all of `\s`).
-/

def digitVal (c : Char) : Nat := c.toNat - ('0').toNat

def natOfDigits (l : Str) : Nat := l.foldl (fun a c => 10 * a + digitVal c) 0

/-- Result of parsing one number: its value and the remaining input. -/
structure NumParse where
  value : Rat
  rest : Str
deriving DecidableEq

/-- `[+-]?\d+(?:\.\d+)?`, maximal munch, converted to an exact rational
as `float()` would convert the matched text: the value of
`sign (ip "." fp)` is `sign * (ip * 10^|fp| + fp) / 10^|fp|`. -/
def parseNumber (s : Str) : Option NumParse :=
  let signAndRest : Int × Str :=
    match s with
    | '+' :: r => (1, r)
    | '-' :: r => (-1, r)
    | _ => (1, s)
  let sign := signAndRest.1
  let s1 := signAndRest.2
  let ds := s1.takeWhile Char.isDigit
  let r1 := s1.dropWhile Char.isDigit
  if ds.isEmpty then none
  else
    match r1 with
    | '.' :: r2 =>
      let fs := r2.takeWhile Char.isDigit
      let r3 := r2.dropWhile Char.isDigit
      if fs.isEmpty then some ⟨mkRat (sign * (natOfDigits ds : Int)) 1, r1⟩
      else
        some ⟨mkRat
          (sign * ((natOfDigits ds * 10 ^ fs.length + natOfDigits fs : Nat) : Int))
          (10 ^ fs.length), r3⟩
    | _ => some ⟨mkRat (sign * (natOfDigits ds : Int)) 1, r1⟩

/-- `_parse_latlon`: match the whole string against the anchored regex;
on success return `(lat, lon)` in input order, on failure `none`. -/
def parseLatLon (s : Str) : Option (Rat × Rat) :=
  let s1 := s.dropWhile isPySpace
  match parseNumber s1 with
  | none => none
  | some n1 =>
    let w := n1.rest.takeWhile isPySpace
    let afterW := n1.rest.dropWhile isPySpace
    let afterSep : Option Str :=
      match afterW with
      | ',' :: r => some (r.dropWhile isPySpace)
      | _ => if w.contains ' ' then some afterW else none
    match afterSep with
    | none => none
    | some s2 =>
      match parseNumber s2 with
      | none => none
      | some n2 =>
        if n2.rest.all isPySpace then some (n1.value, n2.value) else none

/-! ### Candidate generation (src/main.py lines 41-49) -/

/-- Python `\w` (word character), on the ASCII range: letters, digits,
underscore. -/
def isWordChar (c : Char) : Bool := c.isAlphanum || c == '_'

/-- Characters kept unchanged by `re.sub(r"[^\w\s\-']", " ", s)`. -/
def keepPunctChar (c : Char) : Bool :=
  isWordChar c || isPySpace c || c == '-' || c == '\''

/-- `re.sub(r"[^\w\s\-']", " ", cleaned).strip()` (line 45). -/
def stripPunct (s : Str) : Str :=
  pyStrip (s.map (fun c => if keepPunctChar c then c else ' '))

/-- The `candidates` list built on lines 41-45: the cleaned text, the
trimmed prefix before the first comma when a comma is present, and the
punctuation-stripped text. -/
def rawCandidates (cleaned : Str) : List Str :=
  [cleaned]
    ++ (if cleaned.contains ',' then
          [pyStrip (cleaned.takeWhile (fun c => !(c == ',')))]
        else [])
    ++ [stripPunct cleaned]

/-- The list the loop on line 49 iterates:
`[c for c in candidates if c and c not in tried]`.  The comprehension
is a list (not a generator), so it is evaluated in full before the
loop body ever runs, while `tried` is still the empty list: the
membership test filters against `[]` and the comprehension only drops
empty strings. -/
def loopCandidates (cleaned : Str) : List Str :=
  (rawCandidates cleaned).filter
    (fun c => !c.isEmpty && !(([] : List Str).contains c))

/-! ### Geocode resolver: `_geocode` (src/main.py lines 20-61) -/

/-- One geocoding result as used by the code: `latitude` and
`longitude` are read with `[]` (required), `name`/`country`/`admin1`
with `.get` (optional). -/
structure GeoResult where
  name : Option Str
  country : Option Str
  admin1 : Option Str
  latitude : Rat
  longitude : Rat
deriving DecidableEq

/-- An HTTP response: a body on success status, or a non-success
status on which `raise_for_status()` raises. -/
inductive HttpResp (α : Type) where
  | ok (body : α)
  | err (status : Nat)
deriving DecidableEq

/-- The geocoding service as an oracle: from the `name` query
parameter and the language (sent as both the `language` parameter and
the `Accept-Language` header) to the `results` list of the response
body. -/
abbrev GeoSvc := Str → Str → HttpResp (List GeoResult)

inductive GeocodeOutcome where
  /-- the dict returned on lines 32-38 or line 59 -/
  | found (loc : GeoResult)
  /-- the `ValueError` raised on line 61, with the original `place`
  argument and the `tried` list -/
  | notFound (place : Str) (tried : List Str)
  /-- `raise_for_status()` raised on some lookup -/
  | transportError (status : Nat)
deriving DecidableEq

/-- The candidate loop (lines 49-59): `tried` accumulates the queries
issued (`tried.append(q)` precedes the request, so `tried` is exactly
the list of network calls made so far).  Returns the outcome and the
final list of geocoding network calls. -/
def geoLoop (svc : GeoSvc) (lang place : Str) :
    List Str → List Str → GeocodeOutcome × List Str
  | [], tried => (.notFound place tried, tried)
  | q :: qs, tried =>
    let tried1 := tried ++ [q]
    match svc q lang with
    | .err s => (.transportError s, tried1)
    | .ok results =>
      match results with
      | [] => geoLoop svc lang place qs tried1
      | r :: _ => (.found r, tried1)

/-- `_geocode(place, lang)`: clean the input, short-circuit on a
coordinate pair (lines 29-38, `name` is the `place` argument as
passed), otherwise run the candidate loop.  The second component is
the list of geocoding network calls issued. -/
def geocode (svc : GeoSvc) (place lang : Str) : GeocodeOutcome × List Str :=
  let cleaned := cleanPlace place
  match parseLatLon cleaned with
  | some (lat, lon) => (.found ⟨some place, none, none, lat, lon⟩, [])
  | none => geoLoop svc lang place (loopCandidates cleaned) []

/-! ### Forecast fetching and reshaping (src/main.py lines 64-120) -/

/-- `data["daily"]` of the forecast response: the parallel arrays. -/
structure DailyData where
  time : List Str
  temperature_2m_max : List Rat
  temperature_2m_min : List Rat
  precipitation_sum : List Rat
  weathercode : List Int
deriving DecidableEq

/-- The forecast response body as accessed by the code: `daily` is
required (`data["daily"]`), `timezone` read with `.get`, and
`daily_units` read with `.get(..., {})` modelled as a label mapping. -/
structure ForecastData where
  daily : DailyData
  timezone : Option Str
  daily_units : Option (List (Str × Str))
deriving DecidableEq

structure DailyForecastEntry where
  date : Str
  t_max : Rat
  t_min : Rat
  precipitation_sum : Rat
  weathercode : Int
deriving DecidableEq

/-- The dict built for index `i` on lines 100-106; `none` models the
`IndexError` raised when some array is too short for `i`. -/
def entryAt (d : DailyData) (i : Nat) : Option DailyForecastEntry :=
  (d.time.get? i).bind fun a =>
  (d.temperature_2m_max.get? i).bind fun b =>
  (d.temperature_2m_min.get? i).bind fun c =>
  (d.precipitation_sum.get? i).bind fun p =>
  (d.weathercode.get? i).map fun w => ⟨a, b, c, p, w⟩

def reshapeFrom (d : DailyData) : List Nat → Option (List DailyForecastEntry)
  | [] => some []
  | i :: is =>
    match entryAt d i, reshapeFrom d is with
    | some e, some l => some (e :: l)
    | _, _ => none

/-- The loop `for i in range(len(times))` (lines 97-106): one entry
per index of the `time` array, `none` when any indexing raises. -/
def reshapeDaily (d : DailyData) : Option (List DailyForecastEntry) :=
  reshapeFrom d (List.range d.time.length)

/-- The entry the spec expects at index `i`: index `i` of each of the
five arrays (`getD` with an arbitrary fallback; the fallback is never
read at in-range indices). -/
def entrySpec (d : DailyData) (i : Nat) : DailyForecastEntry :=
  ⟨d.time.getD i [], d.temperature_2m_max.getD i 0, d.temperature_2m_min.getD i 0,
    d.precipitation_sum.getD i 0, d.weathercode.getD i 0⟩

/-! ### The tool: `get_weather_forecast` (src/main.py lines 64-120) -/

inductive TempUnit where
  | C
  | F
deriving DecidableEq

/-- Line 81: `"celsius" if units.upper() == "C" else "fahrenheit"`
(`units` is `Literal["C", "F"]`, so `.upper()` is the identity). -/
def tempUnitText : TempUnit → Str
  | .C => ("celsius").toList
  | .F => ("fahrenheit").toList

/-- The query parameters of the forecast request (lines 83-90) that
vary per call; `daily` and `timezone=auto` are constants. -/
structure ForecastParams where
  latitude : Rat
  longitude : Rat
  temperature_unit : Str
  forecast_days : Int
deriving DecidableEq

abbrev ForecastSvc := ForecastParams → HttpResp ForecastData

/-- The `location` object of the result (lines 110-117). -/
structure LocationOut where
  name : Option Str
  country : Option Str
  admin1 : Option Str
  latitude : Rat
  longitude : Rat
  timezone : Option Str
deriving DecidableEq

/-- The returned dict (lines 108-120). -/
structure ForecastResult where
  query : Str
  location : LocationOut
  units : List (Str × Str)
  daily : List DailyForecastEntry
deriving DecidableEq

inductive ToolOutcome where
  | ok (res : ForecastResult)
  /-- rejection by the declared input constraints, before the body -/
  | validationError
  | notFound (place : Str) (tried : List Str)
  | transportError (status : Nat)
  /-- `IndexError` while reshaping mismatched daily arrays -/
  | reshapeError
deriving DecidableEq

/-- Outcome of one call together with the network requests it issued:
the geocoding queries and the forecast requests. -/
structure ToolTrace where
  outcome : ToolOutcome
  geoCalls : List Str
  forecastCalls : List ForecastParams
deriving DecidableEq

/-- The body of `get_weather_forecast` (lines 78-120): clean the
place, resolve it, fetch the forecast, reshape, assemble the result.
Note line 78 rebinds `place` to the cleaned text, so the `query` field
on line 109 holds the cleaned text. -/
def forecastBody (geoSvc : GeoSvc) (fcSvc : ForecastSvc) (place0 : Str)
    (days : Int) (units : TempUnit) (lang : Str) : ToolTrace :=
  let place := cleanPlace place0
  match geocode geoSvc place lang with
  | (.notFound p tried, calls) => ⟨.notFound p tried, calls, []⟩
  | (.transportError s, calls) => ⟨.transportError s, calls, []⟩
  | (.found loc, calls) =>
    let params : ForecastParams :=
      ⟨loc.latitude, loc.longitude, tempUnitText units, days⟩
    match fcSvc params with
    | .err s => ⟨.transportError s, calls, [params]⟩
    | .ok data =>
      match reshapeDaily data.daily with
      | none => ⟨.reshapeError, calls, [params]⟩
      | some daily =>
        ⟨.ok ⟨place,
            ⟨loc.name, loc.country, loc.admin1, loc.latitude, loc.longitude,
              data.timezone⟩,
            data.daily_units.getD [], daily⟩,
          calls, [params]⟩

/-- Modelled from the spec: the tool transport's input validation is
not in `src/` (it is performed by the hosting framework from the
constraints declared on lines 71-73: `days` with `ge=1, le=16` and
`lang` with `min_length=2, max_length=5`); per the spec it rejects
invalid values "before any network call" with no partial work, and
otherwise runs the tool body. -/
def get_weather_forecast (geoSvc : GeoSvc) (fcSvc : ForecastSvc) (place : Str)
    (days : Int) (units : TempUnit) (lang : Str) : ToolTrace :=
  if 1 ≤ days ∧ days ≤ 16 ∧ 2 ≤ lang.length ∧ lang.length ≤ 5 then
    forecastBody geoSvc fcSvc place days units lang
  else ⟨.validationError, [], []⟩

/-! ### Spec-side candidate generator, for comparison

The code's candidate list is `loopCandidates`.  Section 4.3 of the
spec describes the Candidate Generator as additionally dropping exact
duplicates, preserving the first occurrence; the next two definitions
state that deduplicated list, following the spec's words, to compare
with what the code does. -/

def dedupKeepFirstGo (seen : List Str) : List Str → List Str
  | [] => []
  | c :: r =>
    if c ∈ seen then dedupKeepFirstGo seen r
    else c :: dedupKeepFirstGo (c :: seen) r

/-- The Candidate Generator of spec section 4.3: the three constructed
queries with empty strings excluded and duplicates dropped, first
occurrence kept. -/
def specCandidateQueries (cleaned : Str) : List Str :=
  dedupKeepFirstGo [] ((rawCandidates cleaned).filter (fun c => !c.isEmpty))

/-! ### Concrete services and data used to instantiate the theorems -/

/-- A geocoding service on which every query yields zero results. -/
def emptyGeoSvc : GeoSvc := fun _ _ => .ok []

/-- A forecast service that always fails with a non-success status. -/
def failFcSvc : ForecastSvc := fun _ => .err 500

/-- A geocoding result for the query `"Paris"`. -/
def parisLoc : GeoResult :=
  ⟨some (("Paris").toList), some (("France").toList),
    some (("Ile-de-France").toList), mkRat 48857 1000, mkRat 2351 1000⟩

/-- A geocoding service that resolves exactly the query `"Paris"`. -/
def geoStubParis : GeoSvc := fun q _ =>
  if q = ("Paris").toList then .ok [parisLoc] else .ok []

/-- A three-day forecast response with matching-length daily arrays. -/
def fcData3 : ForecastData :=
  ⟨⟨[("2025-01-01").toList, ("2025-01-02").toList, ("2025-01-03").toList],
      [5, 6, 7], [1, 2, 3], [0, 1, 2], [3, 61, 0]⟩,
    some (("Europe/Paris").toList),
    some [(("temperature_2m_max").toList, ("degC").toList)]⟩

/-- A forecast service that always returns `fcData3`. -/
def fcStub3 : ForecastSvc := fun _ => .ok fcData3

/-- The result the tool produces for place `" Paris"` against
`geoStubParis` and `fcStub3`; its `query` field is the cleaned text. -/
def parisResult : ForecastResult :=
  ⟨("Paris").toList,
    ⟨parisLoc.name, parisLoc.country, parisLoc.admin1, parisLoc.latitude,
      parisLoc.longitude, fcData3.timezone⟩,
    fcData3.daily_units.getD [],
    [⟨("2025-01-01").toList, 5, 1, 0, 3⟩, ⟨("2025-01-02").toList, 6, 2, 1, 61⟩,
      ⟨("2025-01-03").toList, 7, 3, 2, 0⟩]⟩

/-- Daily arrays whose `time` array is strictly shorter than the other
four arrays (the mismatch the reshaping does not detect). -/
def dailyLongOthers : DailyData :=
  ⟨[("2025-01-01").toList], [5, 6], [1, 2], [0, 1], [3, 61]⟩

/-- Daily arrays whose `weathercode` array is shorter than `time` (the
mismatch on which indexing raises). -/
def dailyShortCode : DailyData :=
  ⟨[("2025-01-01").toList, ("2025-01-02").toList], [5, 6], [1, 2], [0, 1], [3]⟩

/-! ### Shape invariants of normalized text

`noAdjSpace` says every whitespace character is a literal `' '` and no
two whitespace characters are adjacent (every whitespace run has been
collapsed); `headNotSpace` says the text has no leading whitespace;
`lastOk p` says the final character does not satisfy `p`. -/

def headNotSpace : Str → Bool
  | [] => true
  | c :: _ => !isPySpace c

def noAdjSpace : Str → Bool
  | [] => true
  | [c] => !isPySpace c || c == ' '
  | c :: d :: r => (!isPySpace c || (c == ' ' && !isPySpace d)) && noAdjSpace (d :: r)

def lastOk (p : Char → Bool) (s : Str) : Bool :=
  match s.reverse with
  | [] => true
  | c :: _ => !p c

lemma noAdjSpace_cons (c : Char) (l : Str) :
    noAdjSpace (c :: l) = true ↔
      ((isPySpace c = false ∨ (c = ' ' ∧ headNotSpace l = true)) ∧
        noAdjSpace l = true) := by
  cases l with
  | nil => simp [noAdjSpace, headNotSpace]
  | cons d r =>
    simp only [noAdjSpace, headNotSpace, Bool.and_eq_true, Bool.or_eq_true,
      Bool.not_eq_true', beq_iff_eq]

lemma collapseWSGo_true_head (l : Str) :
    headNotSpace (collapseWSGo true l) = true := by
  induction l with
  | nil => rfl
  | cons c r ih =>
    simp only [collapseWSGo]
    by_cases h : isPySpace c = true
    · simpa [h] using ih
    · simp [h, headNotSpace]

lemma noAdjSpace_collapseWSGo (l : Str) : ∀ b, noAdjSpace (collapseWSGo b l) = true := by
  induction l with
  | nil => intro b; rfl
  | cons c r ih =>
    intro b
    simp only [collapseWSGo]
    by_cases h : isPySpace c = true
    · cases b with
      | true => simpa [h] using ih true
      | false =>
        simp only [h, if_true, if_false, Bool.false_eq_true]
        rw [noAdjSpace_cons]
        exact ⟨Or.inr ⟨rfl, collapseWSGo_true_head r⟩, ih true⟩
    · simp only [h, if_false, Bool.false_eq_true]
      rw [noAdjSpace_cons]
      refine ⟨Or.inl (by simpa using h), ih false⟩

lemma noAdjSpace_append_right (l₁ l₂ : Str)
    (h : noAdjSpace (l₁ ++ l₂) = true) : noAdjSpace l₂ = true := by
  induction l₁ with
  | nil => exact h
  | cons c r ih =>
    rw [List.cons_append, noAdjSpace_cons] at h
    exact ih h.2

lemma noAdjSpace_append_left (l₁ l₂ : Str)
    (h : noAdjSpace (l₁ ++ l₂) = true) : noAdjSpace l₁ = true := by
  induction l₁ with
  | nil => rfl
  | cons c r ih =>
    rw [List.cons_append, noAdjSpace_cons] at h
    rw [noAdjSpace_cons]
    refine ⟨?_, ih h.2⟩
    rcases h.1 with h1 | ⟨h1, h2⟩
    · exact Or.inl h1
    · cases r with
      | nil => exact Or.inr ⟨h1, rfl⟩
      | cons d r2 => exact Or.inr ⟨h1, by simpa [headNotSpace] using h2⟩

lemma dropWhile_decomp (p : Char → Bool) (l : Str) :
    ∃ t, t ++ l.dropWhile p = l := by
  induction l with
  | nil => exact ⟨[], rfl⟩
  | cons c r ih =>
    by_cases h : p c = true
    · obtain ⟨t, ht⟩ := ih
      exact ⟨c :: t, by simp [List.dropWhile, h, ht]⟩
    · exact ⟨[], by simp [List.dropWhile, h]⟩

lemma dropTrailing_decomp (p : Char → Bool) (l : Str) :
    ∃ t, dropTrailing p l ++ t = l := by
  obtain ⟨t, ht⟩ := dropWhile_decomp p l.reverse
  refine ⟨t.reverse, ?_⟩
  have := congrArg List.reverse ht
  simpa [dropTrailing, List.reverse_append] using this

lemma headNotSpace_dropWhile (l : Str) :
    headNotSpace (l.dropWhile isPySpace) = true := by
  induction l with
  | nil => rfl
  | cons c r ih =>
    by_cases h : isPySpace c = true
    · simpa [List.dropWhile, h] using ih
    · simp [List.dropWhile, h, headNotSpace]

lemma headNotSpace_dropTrailing (p : Char → Bool) (l : Str)
    (h : headNotSpace l = true) : headNotSpace (dropTrailing p l) = true := by
  obtain ⟨t, ht⟩ := dropTrailing_decomp p l
  cases hd : dropTrailing p l with
  | nil => rfl
  | cons c r =>
    rw [hd] at ht
    rw [← ht] at h
    simpa [headNotSpace] using h

lemma dropWhile_head_false (p : Char → Bool) (l : Str) (c : Char) (r : Str)
    (h : l.dropWhile p = c :: r) : p c = false := by
  induction l with
  | nil => simp [List.dropWhile] at h
  | cons d s ih =>
    by_cases hd : p d = true
    · rw [List.dropWhile_cons_of_pos hd] at h
      exact ih h
    · rw [List.dropWhile_cons_of_neg (by simpa using hd)] at h
      cases h
      simpa using hd

lemma lastOk_dropTrailing (p : Char → Bool) (l : Str) :
    lastOk p (dropTrailing p l) = true := by
  unfold lastOk dropTrailing
  rw [List.reverse_reverse]
  cases h : l.reverse.dropWhile p with
  | nil => rfl
  | cons c r => simp [dropWhile_head_false p l.reverse c r h]

lemma noAdjSpace_dropTrailing (p : Char → Bool) (l : Str)
    (h : noAdjSpace l = true) : noAdjSpace (dropTrailing p l) = true := by
  obtain ⟨t, ht⟩ := dropTrailing_decomp p l
  rw [← ht] at h
  exact noAdjSpace_append_left _ _ h

lemma noAdjSpace_dropWhile (p : Char → Bool) (l : Str)
    (h : noAdjSpace l = true) : noAdjSpace (l.dropWhile p) = true := by
  obtain ⟨t, ht⟩ := dropWhile_decomp p l
  rw [← ht] at h
  exact noAdjSpace_append_right _ _ h

/-! ### The three invariants hold of every `cleanPlace` output -/

lemma noAdjSpace_cleanPlace (s : Str) : noAdjSpace (cleanPlace s) = true := by
  unfold cleanPlace pyStrip
  exact noAdjSpace_dropTrailing _ _ (noAdjSpace_dropTrailing _ _
    (noAdjSpace_dropWhile _ _ (noAdjSpace_collapseWSGo s false)))

lemma headNotSpace_cleanPlace (s : Str) : headNotSpace (cleanPlace s) = true := by
  unfold cleanPlace pyStrip
  exact headNotSpace_dropTrailing _ _ (headNotSpace_dropTrailing _ _
    (headNotSpace_dropWhile _))

lemma lastOk_cleanPlace (s : Str) : lastOk isCommaOrSpace (cleanPlace s) = true := by
  unfold cleanPlace
  exact lastOk_dropTrailing _ _

/-! ### Each stage fixes text that already has the invariants -/

lemma collapseWSGo_fix (l : Str) (h : noAdjSpace l = true) :
    collapseWSGo false l = l ∧
      (headNotSpace l = true → collapseWSGo true l = l) := by
  induction l with
  | nil => exact ⟨rfl, fun _ => rfl⟩
  | cons c r ih =>
    rw [noAdjSpace_cons] at h
    obtain ⟨ihf, iht⟩ := ih h.2
    constructor
    · simp only [collapseWSGo]
      rcases h.1 with h1 | ⟨h1, h2⟩
      · simp [h1, ihf]
      · subst h1
        simp [show isPySpace ' ' = true from rfl, iht h2]
    · intro hh
      simp only [headNotSpace, Bool.not_eq_true'] at hh
      simp only [collapseWSGo, hh, if_false, Bool.false_eq_true, ihf]

lemma dropWhile_fix (l : Str) (h : headNotSpace l = true) :
    l.dropWhile isPySpace = l := by
  cases l with
  | nil => rfl
  | cons c r =>
    simp only [headNotSpace, Bool.not_eq_true'] at h
    simp [List.dropWhile, h]

lemma dropTrailing_fix (p : Char → Bool) (l : Str) (h : lastOk p l = true) :
    dropTrailing p l = l := by
  unfold dropTrailing
  cases hr : l.reverse with
  | nil =>
    have hl : l = [] := by simpa using congrArg List.reverse hr
    simp [hl]
  | cons c r =>
    have hc : p c = false := by
      unfold lastOk at h
      rw [hr] at h
      simpa using h
    rw [List.dropWhile_cons_of_neg (by simp [hc]), ← hr, List.reverse_reverse]

lemma lastOk_mono (l : Str) (h : lastOk isCommaOrSpace l = true) :
    lastOk isPySpace l = true := by
  unfold lastOk at h ⊢
  cases hr : l.reverse with
  | nil => rfl
  | cons c r =>
    rw [hr] at h
    simp only [Bool.not_eq_true', isCommaOrSpace, Bool.or_eq_false_iff] at h
    simp [h.2]

lemma cleanPlace_fix (t : Str) (h1 : noAdjSpace t = true)
    (h2 : headNotSpace t = true) (h3 : lastOk isCommaOrSpace t = true) :
    cleanPlace t = t := by
  unfold cleanPlace pyStrip
  rw [show collapseWS t = t from (collapseWSGo_fix t h1).1,
    dropWhile_fix t h2,
    dropTrailing_fix isPySpace t (lastOk_mono t h3),
    dropTrailing_fix isCommaOrSpace t h3]

lemma cleanPlace_idem (s : Str) : cleanPlace (cleanPlace s) = cleanPlace s :=
  cleanPlace_fix _ (noAdjSpace_cleanPlace s) (headNotSpace_cleanPlace s)
    (lastOk_cleanPlace s)

/-! ### Reshaping lemmas -/

lemma get?_eq_some_getD {α : Type} (l : List α) (i : Nat) (d₀ : α)
    (h : i < l.length) : l.get? i = some (l.getD i d₀) := by
  induction l generalizing i with
  | nil => simp at h
  | cons a t ih =>
    cases i with
    | zero => rfl
    | succ j => exact ih j (by simpa using h)

lemma entryAt_eq_some (d : DailyData) (i : Nat)
    (h1 : i < d.time.length) (h2 : i < d.temperature_2m_max.length)
    (h3 : i < d.temperature_2m_min.length) (h4 : i < d.precipitation_sum.length)
    (h5 : i < d.weathercode.length) :
    entryAt d i = some (entrySpec d i) := by
  unfold entryAt entrySpec
  rw [get?_eq_some_getD _ _ ([]) h1, get?_eq_some_getD _ _ (0) h2,
    get?_eq_some_getD _ _ (0) h3, get?_eq_some_getD _ _ (0) h4,
    get?_eq_some_getD _ _ (0) h5]
  rfl

lemma entryAt_eq_none (d : DailyData) (i : Nat)
    (h : d.temperature_2m_max.get? i = none ∨ d.temperature_2m_min.get? i = none ∨
      d.precipitation_sum.get? i = none ∨ d.weathercode.get? i = none) :
    entryAt d i = none := by
  unfold entryAt
  rcases h with h | h | h | h
  · simp only [h]
    cases d.time.get? i <;> rfl
  · simp only [h]
    cases d.time.get? i <;> cases d.temperature_2m_max.get? i <;> rfl
  · simp only [h]
    cases d.time.get? i <;> cases d.temperature_2m_max.get? i <;>
      cases d.temperature_2m_min.get? i <;> rfl
  · simp only [h]
    cases d.time.get? i <;> cases d.temperature_2m_max.get? i <;>
      cases d.temperature_2m_min.get? i <;> cases d.precipitation_sum.get? i <;> rfl

lemma reshapeFrom_eq_map (d : DailyData) (f : Nat → DailyForecastEntry) :
    ∀ is : List Nat, (∀ i ∈ is, entryAt d i = some (f i)) →
      reshapeFrom d is = some (is.map f) := by
  intro is
  induction is with
  | nil => intro _; rfl
  | cons i js ih =>
    intro h
    have hi : entryAt d i = some (f i) := h i (List.mem_cons_self i js)
    have hj := ih (fun j hj => h j (List.mem_cons_of_mem i hj))
    simp [reshapeFrom, hi, hj]

lemma reshapeFrom_eq_none (d : DailyData) (i : Nat) :
    ∀ is : List Nat, i ∈ is → entryAt d i = none → reshapeFrom d is = none := by
  intro is
  induction is with
  | nil => intro h; cases h
  | cons j js ih =>
    intro hmem hnone
    rcases List.mem_cons.1 hmem with rfl | hmem2
    · cases hr : reshapeFrom d js <;> simp [reshapeFrom, hnone, hr]
    · cases he : entryAt d j <;> simp [reshapeFrom, he, ih hmem2 hnone]

/-! ## The claims -/

/-- C8: the Text Normalizer is idempotent (cleaning twice equals
cleaning once) and total; its output has every whitespace run
collapsed to a single space (`noAdjSpace`), no leading whitespace
(`headNotSpace`), and no trailing comma or whitespace (`lastOk`);
empty or null input maps to the empty string, and a concrete messy
input is normalized as described. -/
theorem C8_normalizer_idempotent_total :
    (∀ s : Str, cleanPlace (cleanPlace s) = cleanPlace s) ∧
    (∀ s : Str, noAdjSpace (cleanPlace s) = true ∧
      headNotSpace (cleanPlace s) = true ∧
      lastOk isCommaOrSpace (cleanPlace s) = true) ∧
    cleanPlaceOpt none = [] ∧ cleanPlaceOpt (some []) = [] ∧
    cleanPlace (("  Copenhagen,\t  DK ,, ").toList) = ("Copenhagen, DK").toList :=
  ⟨cleanPlace_idem,
    fun s => ⟨noAdjSpace_cleanPlace s, headNotSpace_cleanPlace s, lastOk_cleanPlace s⟩,
    by decide, by decide, by decide⟩

/-- C7: the Coordinate Parser sends `"55.676,12.568"`,
`"55.676, 12.568"` and `"55.676 12.568"` to the pair
(55.676, 12.568) in (latitude, longitude) order, does not match
`"Copenhagen, DK"` (returning the no-match value `none`, not an
error), and performs no range validation: `"999,999"` parses to
(999, 999). -/
theorem C7_parser_examples :
    parseLatLon (("55.676,12.568").toList) =
      some (mkRat 55676 1000, mkRat 12568 1000) ∧
    parseLatLon (("55.676, 12.568").toList) =
      some (mkRat 55676 1000, mkRat 12568 1000) ∧
    parseLatLon (("55.676 12.568").toList) =
      some (mkRat 55676 1000, mkRat 12568 1000) ∧
    parseLatLon (("Copenhagen, DK").toList) = none ∧
    parseLatLon (("999,999").toList) = some (mkRat 999 1, mkRat 999 1) := by
  decide

/-- C2 counterexample: on input `"Paris, FR"` the candidate list the
code builds is not `["Paris, FR", "Paris", "Paris FR"]` — the third
candidate carries two adjacent spaces, because the comma is replaced
by a space next to the existing space and `strip()` only trims the
ends. -/
theorem C2_counterexample :
    loopCandidates (("Paris, FR").toList) ≠
      [("Paris, FR").toList, ("Paris").toList, ("Paris FR").toList] := by
  decide

/-- C2 as amended: for input `"Paris, FR"` the candidates are, in
order and without duplicates, `"Paris, FR"`, `"Paris"`, and
`"Paris  FR"` (two adjacent spaces), the third being exactly the
punctuation-stripped text. -/
theorem C2_candidates_amended :
    loopCandidates (("Paris, FR").toList) =
      [("Paris, FR").toList, ("Paris").toList, ("Paris  FR").toList] ∧
    (loopCandidates (("Paris, FR").toList)).Nodup ∧
    (loopCandidates (("Paris, FR").toList)).get? 2 =
      some (stripPunct (("Paris, FR").toList)) := by
  decide

/-- C4: whenever the cleaned input parses as a coordinate pair, the
resolver issues no geocoding network call and returns a synthesized
location whose latitude and longitude are exactly the parsed pair,
whose name is the input text, and whose country and admin1 are
absent. -/
theorem C4_coordinate_shortcircuit (svc : GeoSvc) (place lang : Str)
    (la lo : Rat) (h : parseLatLon (cleanPlace place) = some (la, lo)) :
    geocode svc place lang =
      (.found ⟨some place, none, none, la, lo⟩, []) := by
  simp only [geocode, h]

/-- C4 witness: the short-circuit at the concrete input
`"55.676,12.568"`. -/
theorem C4_witness :
    geocode emptyGeoSvc (("55.676,12.568").toList) (("en").toList) =
      (.found ⟨some (("55.676,12.568").toList), none, none,
        mkRat 55676 1000, mkRat 12568 1000⟩, []) :=
  C4_coordinate_shortcircuit emptyGeoSvc (("55.676,12.568").toList)
    (("en").toList) (mkRat 55676 1000) (mkRat 12568 1000) (by decide)

/-- C5: evaluation at a failing input for the at-most-once part of the
claim.  For input `"Paris"` the cleaned text and its
punctuation-stripped form coincide, so the candidate list is
`["Paris", "Paris"]`; when the service reports zero results the code
issues the same geocoding query twice — the comprehension
`[c for c in candidates if c and c not in tried]` is evaluated in full
while `tried` is still empty, so its dedup test never fires. -/
theorem C5_duplicate_candidate_retried :
    geocode emptyGeoSvc (("Paris").toList) (("en").toList) =
      (.notFound (("Paris").toList) [("Paris").toList, ("Paris").toList],
        [("Paris").toList, ("Paris").toList]) := by
  decide

/-- C6: evaluation at a failing input.  When every candidate for
`"Qwzxylopolis"` yields zero results, the error's attempted-queries
list is `["Qwzxylopolis", "Qwzxylopolis"]` (the duplicate is retried),
while the spec's deduplicated Candidate Generator output for that
input is the singleton `["Qwzxylopolis"]`: the lists differ in
length. -/
theorem C6_tried_list_keeps_duplicates :
    geocode emptyGeoSvc (("Qwzxylopolis").toList) (("en").toList) =
      (.notFound (("Qwzxylopolis").toList)
        [("Qwzxylopolis").toList, ("Qwzxylopolis").toList],
        [("Qwzxylopolis").toList, ("Qwzxylopolis").toList]) ∧
    specCandidateQueries (cleanPlace (("Qwzxylopolis").toList)) =
      [("Qwzxylopolis").toList] := by
  decide

/-- C10: whenever the cleaned input is empty, every candidate is the
empty string and is filtered out, so the resolver issues zero
geocoding network calls and raises the not-found error with an empty
attempted-queries list. -/
theorem C10_empty_input_no_calls (svc : GeoSvc) (place lang : Str)
    (h : cleanPlace place = []) :
    geocode svc place lang = (.notFound place [], []) := by
  unfold geocode
  rw [h]
  rfl

/-- C10 witness: the concrete input `" ,, "` cleans to the empty
string and resolves to the empty-tried not-found error with no
network calls. -/
theorem C10_witness :
    geocode emptyGeoSvc ((" ,, ").toList) (("en").toList) =
      (.notFound ((" ,, ").toList) [], []) :=
  C10_empty_input_no_calls emptyGeoSvc ((" ,, ").toList) (("en").toList)
    (by decide)

/-- C3 counterexample: the claim's fail-fast direction is false as
stated.  `dailyLongOthers` has mismatched array lengths (its `time`
array is shorter than the other four), yet reshaping does not fail:
it silently produces one entry per date and ignores the extra
elements, because the loop runs over `range(len(times))` only. -/
theorem C3_counterexample :
    dailyLongOthers.time.length ≠ dailyLongOthers.temperature_2m_max.length ∧
    reshapeDaily dailyLongOthers = some [⟨("2025-01-01").toList, 5, 1, 0, 3⟩] := by
  decide

/-- C3 as amended: when all five daily arrays share length n, the
reshaped output has exactly n entries and entry i's fields equal index
i of the corresponding arrays; and whenever one of the four value
arrays is shorter than the dates array, reshaping fails
(index-out-of-range).  When the dates array is the strictly shortest,
the longer arrays are silently truncated to one entry per date (the
counterexample). -/
theorem C3_reshape_amended :
    (∀ d : DailyData,
      d.temperature_2m_max.length = d.time.length →
      d.temperature_2m_min.length = d.time.length →
      d.precipitation_sum.length = d.time.length →
      d.weathercode.length = d.time.length →
      ∃ l, reshapeDaily d = some l ∧ l.length = d.time.length ∧
        ∀ i, i < d.time.length → l.get? i = some (entrySpec d i)) ∧
    (∀ d : DailyData,
      (d.temperature_2m_max.length < d.time.length ∨
        d.temperature_2m_min.length < d.time.length ∨
        d.precipitation_sum.length < d.time.length ∨
        d.weathercode.length < d.time.length) →
      reshapeDaily d = none) := by
  constructor
  · intro d h2 h3 h4 h5
    refine ⟨(List.range d.time.length).map (entrySpec d), ?_, by simp, ?_⟩
    · apply reshapeFrom_eq_map
      intro i hi
      have hi2 : i < d.time.length := List.mem_range.1 hi
      exact entryAt_eq_some d i hi2 (by omega) (by omega) (by omega) (by omega)
    · intro i hi
      rw [List.get?_map, List.get?_range hi]
      rfl
  · intro d h
    unfold reshapeDaily
    rcases h with h | h | h | h
    · exact reshapeFrom_eq_none d _ _ (List.mem_range.2 h)
        (entryAt_eq_none d _ (Or.inl (List.get?_eq_none.2 (le_refl _))))
    · exact reshapeFrom_eq_none d _ _ (List.mem_range.2 h)
        (entryAt_eq_none d _ (Or.inr (Or.inl (List.get?_eq_none.2 (le_refl _)))))
    · exact reshapeFrom_eq_none d _ _ (List.mem_range.2 h)
        (entryAt_eq_none d _ (Or.inr (Or.inr (Or.inl (List.get?_eq_none.2 (le_refl _))))))
    · exact reshapeFrom_eq_none d _ _ (List.mem_range.2 h)
        (entryAt_eq_none d _ (Or.inr (Or.inr (Or.inr (List.get?_eq_none.2 (le_refl _))))))

/-- C3 witness: the amended theorem applied to the concrete 3-day
matching-length response, and to a response whose weather-code array
is shorter than its dates array. -/
theorem C3_witness :
    (∃ l, reshapeDaily fcData3.daily = some l ∧
      l.length = fcData3.daily.time.length ∧
      ∀ i, i < fcData3.daily.time.length →
        l.get? i = some (entrySpec fcData3.daily i)) ∧
    reshapeDaily dailyShortCode = none :=
  ⟨C3_reshape_amended.1 fcData3.daily (by decide) (by decide) (by decide)
      (by decide),
    C3_reshape_amended.2 dailyShortCode (Or.inr (Or.inr (Or.inr (by decide))))⟩

/-- C9: a call with out-of-range `days` or a `lang` of invalid length
is rejected with a validation error; no geocoding and no forecast
network call is made, and no partial work is performed. -/
theorem C9_validation_rejects (gs : GeoSvc) (fs : ForecastSvc) (place : Str)
    (days : Int) (units : TempUnit) (lang : Str)
    (h : days < 1 ∨ 16 < days ∨ lang.length < 2 ∨ 5 < lang.length) :
    get_weather_forecast gs fs place days units lang =
      ⟨.validationError, [], []⟩ := by
  have hne : ¬(1 ≤ days ∧ days ≤ 16 ∧ 2 ≤ lang.length ∧ lang.length ≤ 5) := by
    rintro ⟨h1, h2, h3, h4⟩
    rcases h with h | h | h | h <;> omega
  unfold get_weather_forecast
  rw [if_neg hne]

/-- C9 witness: `days = 0` is rejected before any network call. -/
theorem C9_witness :
    get_weather_forecast emptyGeoSvc failFcSvc (("Copenhagen, DK").toList) 0
      TempUnit.C (("en").toList) = ⟨.validationError, [], []⟩ :=
  C9_validation_rejects emptyGeoSvc failFcSvc (("Copenhagen, DK").toList) 0
    TempUnit.C (("en").toList) (Or.inl (by decide))

/-- Helper for C1: whatever the services return, a successful tool
body yields a result whose `query` field is the cleaned place text
(line 78 rebinds `place` before line 109 uses it). -/
lemma forecastBody_ok_query (gs : GeoSvc) (fs : ForecastSvc) (place : Str)
    (days : Int) (units : TempUnit) (lang : Str) (r : ForecastResult)
    (h : (forecastBody gs fs place days units lang).outcome = .ok r) :
    r.query = cleanPlace place := by
  simp only [forecastBody] at h
  split at h
  · simp at h
  · simp at h
  · split at h
    · simp at h
    · split at h
      · simp at h
      · simp at h
        subst h
        rfl

/-- C1 (amended): whenever `get_weather_forecast` succeeds, the
`query` field of its result equals the cleaned (normalized) place
text — not the original pre-normalization string, which differs from
it whenever normalization changes the input. -/
theorem C1_query_is_cleaned (gs : GeoSvc) (fs : ForecastSvc) (place : Str)
    (days : Int) (units : TempUnit) (lang : Str) (r : ForecastResult)
    (h : (get_weather_forecast gs fs place days units lang).outcome = .ok r) :
    r.query = cleanPlace place := by
  unfold get_weather_forecast at h
  split at h
  · exact forecastBody_ok_query gs fs place days units lang r h
  · simp at h

/-- C1 counterexample: for the input `" Paris"` (leading space) the
call succeeds and the result's `query` field is the normalized
`"Paris"`, not the original string the caller supplied. -/
theorem C1_counterexample :
    (get_weather_forecast geoStubParis fcStub3 ((" Paris").toList) 3
      TempUnit.C (("en").toList)).outcome = ToolOutcome.ok parisResult ∧
    parisResult.query ≠ (" Paris").toList := by
  decide

/-- C1 witness: the amended theorem applied at the concrete input
`" Paris"` with the stub services. -/
theorem C1_witness : parisResult.query = cleanPlace ((" Paris").toList) :=
  C1_query_is_cleaned geoStubParis fcStub3 ((" Paris").toList) 3 TempUnit.C
    (("en").toList) parisResult (by decide)

end WeatherTool
